import Mathlib

/-!
Verification of the mini-office real-time messaging subsystem.

The definitions below are a shallow embedding of the messaging core:
* the `Message` document schema, its pre-save hook and its instance
  methods (`addReaction`, `removeReaction`, `markAsRead`, `editContent`)
  and statics (`getConversation`, `getGroupMessages`) from
  `src/frontend/models/Group.js` (message schema section);
* the REST message router (`/direct`, `/groups/:groupId`,
  `PUT /:messageId`, `/search/...`, `/unread/count`, the read-marking
  `updateMany` calls) from `src/frontend/middleware/upload.js`
  (messages router section);
* the socket gateway handlers (`send_message`, `send_group_message`,
  `mark_as_read`) from `src/unnamed/part_001`.

User/group/message identifiers are modelled as strings (MongoDB ObjectId
strings), timestamps as natural numbers (milliseconds), and the message
collection as a list of `Message` documents.
-/

namespace MiniOffice

/-- JavaScript string comparison, element-wise over the characters of the
two strings: the default comparator of `Array.prototype.sort` on strings.
Structurally recursive so that concrete instances evaluate. -/
def charListLt : List Char → List Char → Bool
  | [], [] => false
  | [], _ :: _ => true
  | _ :: _, [] => false
  | c :: cs, d :: ds => if c < d then true else if d < c then false else charListLt cs ds

/-- Lexicographic comparison of two id strings, as performed by the
JavaScript `sort()` call in the message pre-save hook. -/
def strLt (a b : String) : Bool := charListLt a.data b.data

/-- The `[id1, id2].sort()` step of the conversation-key derivation in
`messageSchema.pre('save')` (src/frontend/models/Group.js): a stable sort
of the two id strings. -/
def sortPair (a b : String) : List String :=
  if strLt b a then [b, a] else [a, b]

/-- JavaScript `Array.prototype.join('_')`. -/
def joinIds : List String → String
  | [] => ""
  | [x] => x
  | x :: xs => x ++ "_" ++ joinIds xs

/-- Conversation key derivation from `messageSchema.pre('save')` and the
search route: sort the two canonical id strings, join with `'_'`. -/
def resolveConversationKey (a b : String) : String :=
  joinIds (sortPair a b)

/-- One entry of the `reactions` array of a message document. -/
structure Reaction where
  user : String
  emoji : String
  createdAt : Nat
deriving DecidableEq

/-- One entry of the `readBy` array of a message document. -/
structure ReadEntry where
  user : String
  readAt : Nat
deriving DecidableEq

/-- The `edited` sub-document of a message. -/
structure EditInfo where
  isEdited : Bool
  editedAt : Option Nat
  originalContent : Option String
deriving DecidableEq

/-- A message document (`messageSchema` in src/frontend/models/Group.js).
`recipient`, `group`, `conversation`, `replyTo`, `deletedAt` default to
`null` in the schema, hence `Option`. -/
structure Message where
  id : String
  sender : String
  content : String
  type : String
  recipient : Option String
  group : Option String
  conversation : Option String
  replyTo : Option String
  reactions : List Reaction
  readBy : List ReadEntry
  edited : EditInfo
  isDeleted : Bool
  deletedAt : Option Nat
  mentions : List String
  createdAt : Nat
deriving DecidableEq

/-- First half of `messageSchema.pre('save')`: when the document has no
group and has a recipient, derive the `conversation` key from the sorted
pair of sender and recipient ids. -/
def applyConversationKey (m : Message) : Message :=
  match m.group, m.recipient with
  | none, some r => { m with conversation := some (resolveConversationKey m.sender r) }
  | _, _ => m

/-- The full `messageSchema.pre('save')` hook: derive the conversation key,
and, when the content was modified by this save, re-extract mentions (the
handle-to-id resolution is stubbed in the source, so the set is always
emptied). -/
def runPreSave (contentModified : Bool) (m : Message) : Message :=
  let m1 := applyConversationKey m
  if contentModified then { m1 with mentions := [] } else m1

/-- Direct-message creation as performed by both the socket `send_message`
handler (src/unnamed/part_001) and `POST /direct`
(src/frontend/middleware/upload.js): `new Message({sender, recipient,
content, type})` followed by `save()` (which runs the pre-save hook on a
fresh document, whose content counts as modified). -/
def mkDirectMessage (id senderId recipientId content ty : String) (now : Nat) : Message :=
  runPreSave true
    { id := id, sender := senderId, content := content, type := ty
      recipient := some recipientId, group := none, conversation := none
      replyTo := none, reactions := [], readBy := []
      edited := ⟨false, none, none⟩, isDeleted := false, deletedAt := none
      mentions := [], createdAt := now }

/-- Group-message creation as performed by both the socket
`send_group_message` handler and `POST /groups/:groupId`:
`new Message({sender, group, content, type, replyTo?})` followed by
`save()`. -/
def mkGroupMessage (id senderId groupId content ty : String) (replyTo : Option String)
    (now : Nat) : Message :=
  runPreSave true
    { id := id, sender := senderId, content := content, type := ty
      recipient := none, group := some groupId, conversation := none
      replyTo := replyTo, reactions := [], readBy := []
      edited := ⟨false, none, none⟩, isDeleted := false, deletedAt := none
      mentions := [], createdAt := now }

/-- `messageSchema.methods.addReaction`: push a `(user, emoji)` reaction
and save, unless an identical one exists; the Bool reports whether a
reaction was inserted. -/
def Message.addReaction (m : Message) (userId emoji : String) (now : Nat) : Message × Bool :=
  if m.reactions.any (fun r => r.user == userId && r.emoji == emoji) then (m, false)
  else (runPreSave false { m with reactions := m.reactions ++ [⟨userId, emoji, now⟩] }, true)

/-- `messageSchema.methods.removeReaction`: filter out all reactions with
this exact `(user, emoji)` pair and save. -/
def Message.removeReaction (m : Message) (userId emoji : String) : Message :=
  runPreSave false
    { m with reactions := m.reactions.filter (fun r => !(r.user == userId && r.emoji == emoji)) }

/-- `messageSchema.methods.markAsRead`: append a `readBy` entry and save
unless the user already has one. -/
def Message.markAsRead (m : Message) (userId : String) (now : Nat) : Message :=
  if m.readBy.any (fun r => r.user == userId) then m
  else runPreSave false { m with readBy := m.readBy ++ [⟨userId, now⟩] }

/-- `messageSchema.methods.editContent`: snapshot the original content if
the message was not yet edited, then overwrite the content and set the
edited flag and timestamp, and save. -/
def Message.editContent (m : Message) (newContent : String) (now : Nat) : Message :=
  let e := if !m.edited.isEdited then { m.edited with originalContent := some m.content }
           else m.edited
  runPreSave true
    { m with content := newContent
             edited := { e with isEdited := true, editedAt := some now } }

/-- Insert a message into a list kept sorted newest-first by `createdAt`
(ties keep existing elements first). -/
def insertByNewest (m : Message) : List Message → List Message
  | [] => [m]
  | x :: xs => if m.createdAt ≤ x.createdAt then x :: insertByNewest m xs else m :: x :: xs

/-- The `.sort({ createdAt: -1 })` step of the message queries: order the
matching documents newest-first. -/
def sortNewestFirst (l : List Message) : List Message :=
  l.foldr insertByNewest []

/-- `messageSchema.statics.getConversation`: filter on the derived
conversation key and `isDeleted: false`, sort newest-first, then apply
`.limit(limit * page).skip((page - 1) * limit)` (MongoDB applies the skip
before the limit). -/
def getConversation (store : List Message) (userId1 userId2 : String)
    (page limit : Nat) : List Message :=
  let conversationId := resolveConversationKey userId1 userId2
  ((sortNewestFirst (store.filter
      (fun m => m.conversation == some conversationId && !m.isDeleted))).drop
    ((page - 1) * limit)).take (limit * page)

/-- `messageSchema.statics.getGroupMessages`: same shape, scoped by group. -/
def getGroupMessages (store : List Message) (groupId : String)
    (page limit : Nat) : List Message :=
  ((sortNewestFirst (store.filter
      (fun m => m.group == some groupId && !m.isDeleted))).drop
    ((page - 1) * limit)).take (limit * page)

/-- JavaScript whitespace test for the characters `trim` strips. -/
def isWs (c : Char) : Bool :=
  c == ' ' || c == '\t' || c == '\n' || c == '\r'

/-- JavaScript `String.prototype.trim` over the character list: strip
whitespace from both ends. -/
def trimChars (l : List Char) : List Char :=
  ((l.dropWhile isWs).reverse.dropWhile isWs).reverse

/-- The `trim()` sanitizer applied to request fields by the router's
validators. -/
def jsTrim (s : String) : String := ⟨trimChars s.data⟩

/-- Case-insensitive substring containment, modelling the
`{ $regex: q, $options: 'i' }` content filter of the search routes for a
plain (metacharacter-free) query string. -/
def containsCI (content q : String) : Bool :=
  (content.data.map Char.toLower).tails.any
    (fun t => (q.data.map Char.toLower).isPrefixOf t)

/-- `GET /search/conversation/:userId`: reject queries shorter than two
characters, otherwise find non-deleted messages of the conversation whose
content matches the query, newest-first, with
`.limit(limit * 1).skip((page - 1) * limit)`. -/
def searchConversationEndpoint (store : List Message) (meId otherId q : String)
    (page limit : Nat) : Option (List Message) :=
  if (jsTrim q).length < 2 then none
  else
    let conversationId := resolveConversationKey meId otherId
    some (((sortNewestFirst (store.filter
        (fun m => m.conversation == some conversationId &&
                  containsCI m.content q && !m.isDeleted))).drop
      ((page - 1) * limit)).take (limit * 1))

/-- `GET /search/group/:groupId`: same shape, scoped by group. -/
def searchGroupEndpoint (store : List Message) (groupId q : String)
    (page limit : Nat) : Option (List Message) :=
  if (jsTrim q).length < 2 then none
  else
    some (((sortNewestFirst (store.filter
        (fun m => m.group == some groupId &&
                  containsCI m.content q && !m.isDeleted))).drop
      ((page - 1) * limit)).take (limit * 1))

/-- The soft-delete mutation of `DELETE /:messageId`: set `isDeleted` and
`deletedAt` on the targeted document and save it back. -/
def softDelete (store : List Message) (messageId : String) (now : Nat) : List Message :=
  store.map (fun m =>
    if m.id == messageId then runPreSave false { m with isDeleted := true, deletedAt := some now }
    else m)

/-- `GET /unread/count`: `countDocuments` with
`$or: [{recipient: me}, {group: {$in: joinedGroups}, sender: {$ne: me}}]`,
no `readBy` entry for `me`, and `isDeleted: false`. -/
def unreadCount (store : List Message) (userId : String)
    (joinedGroups : List String) : Nat :=
  (store.filter (fun m =>
    (m.recipient == some userId ||
      (match m.group with
       | some g => joinedGroups.contains g && m.sender != userId
       | none => false)) &&
    !(m.readBy.any (fun r => r.user == userId)) &&
    !m.isDeleted)).length

/-- Lookup of a message document by id (`Message.findById`). -/
def findMessage (store : List Message) (messageId : String) : Option Message :=
  store.find? (fun m => m.id == messageId)

/-- Outcome of the `PUT /:messageId` edit endpoint. -/
inductive EditOutcome where
  | validationFailed
  | notFound
  | forbidden
  | windowExpired
  | success (updated : List Message)
deriving DecidableEq

/-- Whether an edit outcome carries an updated store. -/
def EditOutcome.isSuccess : EditOutcome → Bool
  | .success _ => true
  | _ => false

/-- `PUT /:messageId` (src/frontend/middleware/upload.js): validate the
trimmed content length, look the message up (404 when missing or
soft-deleted), require the requester to be the sender, reject when
`createdAt < now - 5 * 60 * 1000`, otherwise run `editContent` with the
trimmed content and persist the result. -/
def editMessageEndpoint (store : List Message) (userId messageId content : String)
    (now : Nat) : EditOutcome :=
  if (jsTrim content).length < 1 ∨ 2000 < (jsTrim content).length then .validationFailed
  else
    match findMessage store messageId with
    | none => .notFound
    | some m =>
      if m.isDeleted then .notFound
      else if m.sender != userId then .forbidden
      else if m.createdAt < now - 5 * 60 * 1000 then .windowExpired
      else .success (store.map (fun x =>
        if x.id == messageId then x.editContent (jsTrim content) now else x))

/-- The per-document effect of the `updateMany` in
`GET /conversations/:userId`: push a `readBy` entry for the requester on
every message sent by the other user to the requester that the requester
has not read yet (query middleware, so the pre-save hook does not run). -/
def convFetchUpdate (meId otherId : String) (now : Nat) (m : Message) : Message :=
  if m.sender == otherId && m.recipient == some meId &&
      !(m.readBy.any (fun r => r.user == meId)) then
    { m with readBy := m.readBy ++ [⟨meId, now⟩] }
  else m

/-- The read-marking side effect of `GET /conversations/:userId` over the
whole collection. -/
def markConversationFetched (store : List Message) (meId otherId : String)
    (now : Nat) : List Message :=
  store.map (convFetchUpdate meId otherId now)

/-- The per-document effect of the `updateMany` in `GET /groups/:groupId`:
push a `readBy` entry for the requester on every message of the group not
sent by the requester that the requester has not read yet. -/
def groupFetchUpdate (meId groupId : String) (now : Nat) (m : Message) : Message :=
  if m.group == some groupId && m.sender != meId &&
      !(m.readBy.any (fun r => r.user == meId)) then
    { m with readBy := m.readBy ++ [⟨meId, now⟩] }
  else m

/-- The read-marking side effect of `GET /groups/:groupId` over the whole
collection. -/
def markGroupFetched (store : List Message) (meId groupId : String)
    (now : Nat) : List Message :=
  store.map (groupFetchUpdate meId groupId now)

theorem charListLt_asymm : ∀ xs ys : List Char,
    charListLt xs ys = true → charListLt ys xs = false
  | [], [] => by simp [charListLt]
  | [], _ :: _ => by simp [charListLt]
  | _ :: _, [] => by simp [charListLt]
  | x :: xs, y :: ys => by
    intro h
    simp only [charListLt] at h ⊢
    by_cases hxy : x < y
    · rw [if_neg (lt_asymm hxy), if_pos hxy]
    · rw [if_neg hxy] at h
      by_cases hyx : y < x
      · rw [if_pos hyx] at h
        exact absurd h (by simp)
      · rw [if_neg hyx] at h
        rw [if_neg hyx, if_neg hxy]
        exact charListLt_asymm xs ys h

theorem charListLt_antisymm : ∀ xs ys : List Char,
    charListLt xs ys = false → charListLt ys xs = false → xs = ys
  | [], [] => fun _ _ => rfl
  | [], _ :: _ => by simp [charListLt]
  | _ :: _, [] => by
    intro _ h
    simp [charListLt] at h
  | x :: xs, y :: ys => by
    intro h1 h2
    simp only [charListLt] at h1 h2
    by_cases hxy : x < y
    · rw [if_pos hxy] at h1
      exact absurd h1 (by simp)
    · rw [if_neg hxy] at h1
      by_cases hyx : y < x
      · rw [if_pos hyx] at h2
        exact absurd h2 (by simp)
      · rw [if_neg hyx] at h1
        rw [if_neg hyx, if_neg hxy] at h2
        have hx : x = y := le_antisymm (not_lt.mp hyx) (not_lt.mp hxy)
        have hxs : xs = ys := charListLt_antisymm xs ys h1 h2
        rw [hx, hxs]

theorem strLt_asymm (a b : String) (h : strLt a b = true) : strLt b a = false :=
  charListLt_asymm a.data b.data h

theorem strLt_antisymm (a b : String) (h1 : strLt a b = false)
    (h2 : strLt b a = false) : a = b := by
  cases a with
  | mk da =>
    cases b with
    | mk db =>
      have hd : da = db := charListLt_antisymm da db h1 h2
      rw [hd]

/-- C1: the derived conversation key is symmetric in the two user ids, and
equals the two canonical id strings sorted lexicographically and joined
with the separator `'_'`. -/
theorem C1_conversation_key_symmetric_sorted_join (a b : String) :
    resolveConversationKey a b = resolveConversationKey b a ∧
    (strLt a b = true → resolveConversationKey a b = a ++ "_" ++ b) ∧
    (strLt b a = true → resolveConversationKey a b = b ++ "_" ++ a) ∧
    (a = b → resolveConversationKey a b = a ++ "_" ++ b) := by
  refine ⟨?_, ?_, ?_, ?_⟩
  · unfold resolveConversationKey sortPair
    by_cases h : strLt b a = true
    · rw [if_pos h, if_neg (by rw [strLt_asymm b a h]; simp)]
    · have h' : strLt b a = false := by
        cases hb : strLt b a
        · rfl
        · exact absurd hb h
      rw [if_neg h]
      by_cases h2 : strLt a b = true
      · rw [if_pos h2]
      · have h2' : strLt a b = false := by
          cases hb : strLt a b
          · rfl
          · exact absurd hb h2
        have : a = b := strLt_antisymm a b h2' h'
        rw [this]
        cases hb : strLt b b <;> simp
  · intro h
    unfold resolveConversationKey sortPair
    rw [if_neg (by rw [strLt_asymm a b h]; simp)]
    rfl
  · intro h
    unfold resolveConversationKey sortPair
    rw [if_pos h]
    rfl
  · intro h
    subst h
    unfold resolveConversationKey sortPair
    cases hb : strLt a a <;> simp [joinIds]

theorem C1_conversation_key_witness :
    resolveConversationKey "alice" "bob" = resolveConversationKey "bob" "alice" ∧
    resolveConversationKey "alice" "bob" = "alice" ++ "_" ++ "bob" :=
  ⟨(C1_conversation_key_symmetric_sorted_join "alice" "bob").1,
   (C1_conversation_key_symmetric_sorted_join "alice" "bob").2.1 (by decide)⟩

/-- C2: every message created through the direct-send paths (gateway
`send_message`, REST `POST /direct`) has its recipient set, its group
unset and a present conversation key; every message created through the
group-send paths has its group set and its recipient unset. -/
theorem C2_direct_group_addressing (id s r g c ty : String) (rt : Option String) (now : Nat) :
    (mkDirectMessage id s r c ty now).recipient = some r ∧
    (mkDirectMessage id s r c ty now).group = none ∧
    (mkDirectMessage id s r c ty now).conversation = some (resolveConversationKey s r) ∧
    (mkGroupMessage id s g c ty rt now).group = some g ∧
    (mkGroupMessage id s g c ty rt now).recipient = none :=
  ⟨rfl, rfl, rfl, rfl, rfl⟩

theorem applyConversationKey_eq (m : Message) :
    applyConversationKey m = m ∨
    ∃ r, m.recipient = some r ∧
      applyConversationKey m =
        { m with conversation := some (resolveConversationKey m.sender r) } := by
  unfold applyConversationKey
  rcases hg : m.group with _ | g
  · rcases hr : m.recipient with _ | r
    · exact Or.inl rfl
    · exact Or.inr ⟨r, rfl, rfl⟩
  · exact Or.inl rfl

@[simp]
theorem runPreSave_id (b : Bool) (m : Message) : (runPreSave b m).id = m.id := by
  rcases applyConversationKey_eq m with h | ⟨r, _, h⟩ <;> unfold runPreSave <;> rw [h] <;>
    cases b <;> rfl

@[simp]
theorem runPreSave_sender (b : Bool) (m : Message) : (runPreSave b m).sender = m.sender := by
  rcases applyConversationKey_eq m with h | ⟨r, _, h⟩ <;> unfold runPreSave <;> rw [h] <;>
    cases b <;> rfl

@[simp]
theorem runPreSave_content (b : Bool) (m : Message) : (runPreSave b m).content = m.content := by
  rcases applyConversationKey_eq m with h | ⟨r, _, h⟩ <;> unfold runPreSave <;> rw [h] <;>
    cases b <;> rfl

@[simp]
theorem runPreSave_recipient (b : Bool) (m : Message) :
    (runPreSave b m).recipient = m.recipient := by
  rcases applyConversationKey_eq m with h | ⟨r, _, h⟩ <;> unfold runPreSave <;> rw [h] <;>
    cases b <;> rfl

@[simp]
theorem runPreSave_group (b : Bool) (m : Message) : (runPreSave b m).group = m.group := by
  rcases applyConversationKey_eq m with h | ⟨r, _, h⟩ <;> unfold runPreSave <;> rw [h] <;>
    cases b <;> rfl

@[simp]
theorem runPreSave_reactions (b : Bool) (m : Message) :
    (runPreSave b m).reactions = m.reactions := by
  rcases applyConversationKey_eq m with h | ⟨r, _, h⟩ <;> unfold runPreSave <;> rw [h] <;>
    cases b <;> rfl

@[simp]
theorem runPreSave_readBy (b : Bool) (m : Message) : (runPreSave b m).readBy = m.readBy := by
  rcases applyConversationKey_eq m with h | ⟨r, _, h⟩ <;> unfold runPreSave <;> rw [h] <;>
    cases b <;> rfl

@[simp]
theorem runPreSave_edited (b : Bool) (m : Message) : (runPreSave b m).edited = m.edited := by
  rcases applyConversationKey_eq m with h | ⟨r, _, h⟩ <;> unfold runPreSave <;> rw [h] <;>
    cases b <;> rfl

@[simp]
theorem runPreSave_isDeleted (b : Bool) (m : Message) :
    (runPreSave b m).isDeleted = m.isDeleted := by
  rcases applyConversationKey_eq m with h | ⟨r, _, h⟩ <;> unfold runPreSave <;> rw [h] <;>
    cases b <;> rfl

@[simp]
theorem runPreSave_createdAt (b : Bool) (m : Message) :
    (runPreSave b m).createdAt = m.createdAt := by
  rcases applyConversationKey_eq m with h | ⟨r, _, h⟩ <;> unfold runPreSave <;> rw [h] <;>
    cases b <;> rfl

theorem markAsRead_readBy (m : Message) (u : String) (t : Nat) :
    (m.markAsRead u t).readBy =
      if m.readBy.any (fun r => r.user == u) then m.readBy else m.readBy ++ [⟨u, t⟩] := by
  unfold Message.markAsRead
  by_cases h : m.readBy.any (fun r => r.user == u) = true
  · rw [if_pos h, if_pos h]
  · rw [if_neg h, if_neg h, runPreSave_readBy]

theorem markAsRead_of_read (m : Message) (u : String) (t : Nat)
    (h : m.readBy.any (fun r => r.user == u) = true) : m.markAsRead u t = m := by
  unfold Message.markAsRead
  rw [if_pos h]

/-- C6: `markAsRead` is idempotent — calling it twice with the same user
leaves exactly one `readBy` entry for that user, and an entry is appended
only if the user has none yet. -/
theorem C6_markRead_idempotent (m : Message) (u : String) (t1 t2 : Nat) :
    (m.readBy.countP (fun r => r.user == u) ≤ 1 →
      ((m.markAsRead u t1).markAsRead u t2).readBy.countP (fun r => r.user == u) = 1) ∧
    (m.readBy.any (fun r => r.user == u) = false →
      (m.markAsRead u t1).readBy = m.readBy ++ [⟨u, t1⟩]) ∧
    (m.readBy.any (fun r => r.user == u) = true →
      m.markAsRead u t1 = m) := by
  refine ⟨?_, ?_, ?_⟩
  · intro hle
    by_cases h : m.readBy.any (fun r => r.user == u) = true
    · rw [markAsRead_of_read m u t1 h, markAsRead_of_read m u t2 h]
      have hpos : 0 < m.readBy.countP (fun r => r.user == u) := by
        rw [List.countP_pos_iff]
        obtain ⟨x, hx, hpx⟩ := List.any_eq_true.mp h
        exact ⟨x, hx, hpx⟩
      omega
    · have h' : m.readBy.any (fun r => r.user == u) = false := by
        cases hb : m.readBy.any (fun r => r.user == u)
        · rfl
        · exact absurd hb h
      have h0 : m.readBy.countP (fun r => r.user == u) = 0 := by
        rw [List.countP_eq_zero]
        intro a ha hpa
        exact h (List.any_eq_true.mpr ⟨a, ha, hpa⟩)
      have hfst : (m.markAsRead u t1).readBy = m.readBy ++ [⟨u, t1⟩] := by
        rw [markAsRead_readBy, if_neg h]
      have hany : (m.markAsRead u t1).readBy.any (fun r => r.user == u) = true := by
        rw [hfst, List.any_append]
        simp
      rw [markAsRead_readBy, if_pos hany, hfst, List.countP_append, h0]
      simp
  · intro h
    rw [markAsRead_readBy, if_neg (by rw [h]; simp)]
  · exact markAsRead_of_read m u t1

theorem C6_markRead_witness :
    (((mkDirectMessage "m1" "alice" "bob" "hello" "text" 10).markAsRead "bob" 20).markAsRead
        "bob" 30).readBy.countP (fun r => r.user == "bob") = 1 ∧
    ((mkDirectMessage "m1" "alice" "bob" "hello" "text" 10).markAsRead "bob" 20).readBy =
      (mkDirectMessage "m1" "alice" "bob" "hello" "text" 10).readBy ++ [⟨"bob", 20⟩] ∧
    (((mkDirectMessage "m1" "alice" "bob" "hello" "text" 10).markAsRead "bob" 20).markAsRead
        "bob" 30) = ((mkDirectMessage "m1" "alice" "bob" "hello" "text" 10).markAsRead "bob" 20) :=
  ⟨(C6_markRead_idempotent (mkDirectMessage "m1" "alice" "bob" "hello" "text" 10)
      "bob" 20 30).1 (by decide),
   (C6_markRead_idempotent (mkDirectMessage "m1" "alice" "bob" "hello" "text" 10)
      "bob" 20 30).2.1 (by decide),
   (C6_markRead_idempotent ((mkDirectMessage "m1" "alice" "bob" "hello" "text" 10).markAsRead
      "bob" 20) "bob" 30 0).2.2 (by decide)⟩

theorem addReaction_of_present (m : Message) (u e : String) (t : Nat)
    (h : m.reactions.any (fun r => r.user == u && r.emoji == e) = true) :
    m.addReaction u e t = (m, false) := by
  unfold Message.addReaction
  rw [if_pos h]

theorem addReaction_of_absent (m : Message) (u e : String) (t : Nat)
    (h : m.reactions.any (fun r => r.user == u && r.emoji == e) = false) :
    (m.addReaction u e t).1.reactions = m.reactions ++ [⟨u, e, t⟩] ∧
    (m.addReaction u e t).2 = true := by
  unfold Message.addReaction
  rw [if_neg (by rw [h]; simp)]
  exact ⟨runPreSave_reactions _ _, rfl⟩

theorem removeReaction_reactions (m : Message) (u e : String) :
    (m.removeReaction u e).reactions =
      m.reactions.filter (fun r => !(r.user == u && r.emoji == e)) := by
  unfold Message.removeReaction
  rw [runPreSave_reactions]

/-- C7 (amended): a second `addReaction` with the same (user, emoji)
reports false and changes nothing, and whenever the first `addReaction`
actually inserted the reaction (reported true), `removeReaction` restores
the reaction list — hence the reaction count — to its pre-add value. -/
theorem C7_reaction_toggle_amended (m : Message) (u e : String) (t1 t2 : Nat) :
    ((m.addReaction u e t1).1.addReaction u e t2).2 = false ∧
    ((m.addReaction u e t1).1.addReaction u e t2).1 = (m.addReaction u e t1).1 ∧
    ((m.addReaction u e t1).2 = true →
      ((m.addReaction u e t1).1.removeReaction u e).reactions = m.reactions) := by
  by_cases h : m.reactions.any (fun r => r.user == u && r.emoji == e) = true
  · rw [addReaction_of_present m u e t1 h]
    refine ⟨?_, ?_, ?_⟩
    · show (m.addReaction u e t2).2 = false
      rw [addReaction_of_present m u e t2 h]
    · show (m.addReaction u e t2).1 = m
      rw [addReaction_of_present m u e t2 h]
    · intro hfalse
      exact Bool.noConfusion hfalse
  · have h' : m.reactions.any (fun r => r.user == u && r.emoji == e) = false := by
      cases hb : m.reactions.any (fun r => r.user == u && r.emoji == e)
      · rfl
      · exact absurd hb h
    obtain ⟨hre, _⟩ := addReaction_of_absent m u e t1 h'
    have hany2 : ((m.addReaction u e t1).1.reactions.any
        (fun r => r.user == u && r.emoji == e)) = true := by
      rw [hre, List.any_append]
      simp
    refine ⟨?_, ?_, ?_⟩
    · rw [addReaction_of_present _ u e t2 hany2]
    · rw [addReaction_of_present _ u e t2 hany2]
    · intro _
      rw [removeReaction_reactions, hre, List.filter_append]
      have hfilter : m.reactions.filter (fun r => !(r.user == u && r.emoji == e)) =
          m.reactions := by
        rw [List.filter_eq_self]
        intro a ha
        have hnp : ((fun r : Reaction => r.user == u && r.emoji == e) a) = false := by
          cases hb : ((fun r : Reaction => r.user == u && r.emoji == e) a)
          · rfl
          · exact absurd (h' ▸ List.any_eq_true.mpr ⟨a, ha, hb⟩) (by simp)
        simp only at hnp
        simp [hnp]
      rw [hfilter]
      simp

/-- C7 counterexample: on a message already carrying the (user, emoji)
reaction, `addReaction` is a no-op and `removeReaction` still deletes the
pre-existing reaction, so the reaction count drops below its pre-add
value instead of being restored. -/
theorem C7_reaction_counterexample :
    (((mkDirectMessage "m1" "alice" "bob" "hello" "text" 10).addReaction "bob" "like"
        20).1).reactions.length = 1 ∧
    ((((mkDirectMessage "m1" "alice" "bob" "hello" "text" 10).addReaction "bob" "like"
        20).1.addReaction "bob" "like" 30).1.removeReaction "bob" "like").reactions.length
      = 0 := by
  decide

theorem C7_reaction_witness :
    (((mkDirectMessage "m2" "alice" "bob" "hi" "text" 10).addReaction "bob" "like"
        20).1.addReaction "bob" "like" 30).2 = false ∧
    (((mkDirectMessage "m2" "alice" "bob" "hi" "text" 10).addReaction "bob" "like"
        20).1.removeReaction "bob" "like").reactions =
      (mkDirectMessage "m2" "alice" "bob" "hi" "text" 10).reactions :=
  ⟨(C7_reaction_toggle_amended (mkDirectMessage "m2" "alice" "bob" "hi" "text" 10)
      "bob" "like" 20 30).1,
   (C7_reaction_toggle_amended (mkDirectMessage "m2" "alice" "bob" "hi" "text" 10)
      "bob" "like" 20 30).2.2 (by decide)⟩

theorem editContent_content (m : Message) (c : String) (t : Nat) :
    (m.editContent c t).content = c := by
  unfold Message.editContent
  rw [runPreSave_content]

theorem editContent_id (m : Message) (c : String) (t : Nat) :
    (m.editContent c t).id = m.id := by
  unfold Message.editContent
  rw [runPreSave_id]

theorem editContent_edited (m : Message) (c : String) (t : Nat) :
    (m.editContent c t).edited =
      ⟨true, some t,
        if m.edited.isEdited then m.edited.originalContent else some m.content⟩ := by
  unfold Message.editContent
  rw [runPreSave_edited]
  cases he : m.edited.isEdited <;> simp [he]

/-- C8: the first `editContent` call snapshots the message's original
content into the edited record; a later call does not overwrite that
snapshot, while the edited flag and edit timestamp are updated on every
call. -/
theorem C8_edit_snapshot (m : Message) (c1 c2 : String) (t1 t2 : Nat)
    (h : m.edited.isEdited = false) :
    (m.editContent c1 t1).edited.originalContent = some m.content ∧
    ((m.editContent c1 t1).editContent c2 t2).edited.originalContent = some m.content ∧
    (m.editContent c1 t1).edited.isEdited = true ∧
    (m.editContent c1 t1).edited.editedAt = some t1 ∧
    ((m.editContent c1 t1).editContent c2 t2).edited.isEdited = true ∧
    ((m.editContent c1 t1).editContent c2 t2).edited.editedAt = some t2 := by
  have h1 := editContent_edited m c1 t1
  have h2 := editContent_edited (m.editContent c1 t1) c2 t2
  rw [h1] at h2
  rw [h1, h2]
  simp [h]

theorem C8_edit_witness :
    ((mkDirectMessage "m1" "alice" "bob" "hello" "text" 10).editContent "first"
        20).edited.originalContent =
      some (mkDirectMessage "m1" "alice" "bob" "hello" "text" 10).content ∧
    (((mkDirectMessage "m1" "alice" "bob" "hello" "text" 10).editContent "first"
        20).editContent "second" 30).edited.originalContent =
      some (mkDirectMessage "m1" "alice" "bob" "hello" "text" 10).content ∧
    (((mkDirectMessage "m1" "alice" "bob" "hello" "text" 10).editContent "first"
        20).editContent "second" 30).edited.editedAt = some 30 :=
  ⟨(C8_edit_snapshot (mkDirectMessage "m1" "alice" "bob" "hello" "text" 10)
      "first" "second" 20 30 (by decide)).1,
   (C8_edit_snapshot (mkDirectMessage "m1" "alice" "bob" "hello" "text" 10)
      "first" "second" 20 30 (by decide)).2.1,
   (C8_edit_snapshot (mkDirectMessage "m1" "alice" "bob" "hello" "text" 10)
      "first" "second" 20 30 (by decide)).2.2.2.2.2⟩

theorem mem_insertByNewest (x m : Message) (l : List Message)
    (hx : x ∈ insertByNewest m l) : x = m ∨ x ∈ l := by
  induction l with
  | nil =>
    simp only [insertByNewest, List.mem_singleton] at hx
    exact Or.inl hx
  | cons y ys ih =>
    simp only [insertByNewest] at hx
    by_cases h : m.createdAt ≤ y.createdAt
    · rw [if_pos h] at hx
      rcases List.mem_cons.mp hx with h1 | h1
      · subst h1
        exact Or.inr (List.mem_cons_self _ _)
      · rcases ih h1 with h2 | h2
        · exact Or.inl h2
        · exact Or.inr (List.mem_cons_of_mem _ h2)
    · rw [if_neg h] at hx
      rcases List.mem_cons.mp hx with h1 | h1
      · exact Or.inl h1
      · exact Or.inr h1

theorem mem_sortNewestFirst (x : Message) (l : List Message)
    (hx : x ∈ sortNewestFirst l) : x ∈ l := by
  induction l with
  | nil => exact absurd hx (by simp [sortNewestFirst])
  | cons y ys ih =>
    have hx' : x ∈ insertByNewest y (sortNewestFirst ys) := hx
    rcases mem_insertByNewest x y _ hx' with h | h
    · subst h
      exact List.mem_cons_self _ _
    · exact List.mem_cons_of_mem _ (ih h)

theorem mem_query (x : Message) (l : List Message) (p : Message → Bool) (s t : Nat)
    (hx : x ∈ ((sortNewestFirst (l.filter p)).drop s).take t) : p x = true ∧ x ∈ l := by
  have h1 : x ∈ (sortNewestFirst (l.filter p)).drop s := List.mem_of_mem_take hx
  have h2 : x ∈ sortNewestFirst (l.filter p) := List.mem_of_mem_drop h1
  have h3 : x ∈ l.filter p := mem_sortNewestFirst x _ h2
  exact ⟨(List.mem_filter.mp h3).2, (List.mem_filter.mp h3).1⟩

theorem softDelete_deleted (store : List Message) (mid : String) (tdel : Nat)
    (x : Message) (hx : x ∈ softDelete store mid tdel) (hxf : x.isDeleted = false) :
    x.id ≠ mid := by
  obtain ⟨a, _, hfa⟩ := List.mem_map.mp hx
  by_cases hid : (a.id == mid) = true
  · rw [if_pos hid] at hfa
    intro _
    have hat : x.isDeleted = true := by
      rw [← hfa, runPreSave_isDeleted]
    rw [hxf] at hat
    exact Bool.noConfusion hat
  · rw [if_neg hid] at hfa
    subst hfa
    intro hxe
    exact hid (beq_iff_eq.mpr hxe)

/-- C3: soft-deleted messages never appear in the results of
getConversation, getGroupMessages or the text-search endpoints, even when
queried immediately after the soft delete. -/
theorem C3_soft_deleted_never_returned (store : List Message) (u1 u2 g q mid : String)
    (page limit tdel : Nat) (m : Message) :
    (m ∈ getConversation store u1 u2 page limit → m.isDeleted = false) ∧
    (m ∈ getGroupMessages store g page limit → m.isDeleted = false) ∧
    (∀ res, searchConversationEndpoint store u1 u2 q page limit = some res →
      m ∈ res → m.isDeleted = false) ∧
    (∀ res, searchGroupEndpoint store g q page limit = some res →
      m ∈ res → m.isDeleted = false) ∧
    (m ∈ getConversation (softDelete store mid tdel) u1 u2 page limit → m.id ≠ mid) ∧
    (m ∈ getGroupMessages (softDelete store mid tdel) g page limit → m.id ≠ mid) := by
  refine ⟨?_, ?_, ?_, ?_, ?_, ?_⟩
  · intro h
    have hq := mem_query m store
      (fun mm => mm.conversation == some (resolveConversationKey u1 u2) && !mm.isDeleted)
      ((page - 1) * limit) (limit * page) h
    have := hq.1
    simp only [Bool.and_eq_true, Bool.not_eq_true'] at this
    exact this.2
  · intro h
    have hq := mem_query m store
      (fun mm => mm.group == some g && !mm.isDeleted)
      ((page - 1) * limit) (limit * page) h
    have := hq.1
    simp only [Bool.and_eq_true, Bool.not_eq_true'] at this
    exact this.2
  · intro res hres hm
    unfold searchConversationEndpoint at hres
    by_cases hlen : (jsTrim q).length < 2
    · rw [if_pos hlen] at hres
      exact absurd hres (by simp)
    · rw [if_neg hlen] at hres
      have hres' := Option.some.inj hres
      subst hres'
      have hq := mem_query m store
        (fun mm => mm.conversation == some (resolveConversationKey u1 u2) &&
          containsCI mm.content q && !mm.isDeleted)
        ((page - 1) * limit) (limit * 1) hm
      have := hq.1
      simp only [Bool.and_eq_true, Bool.not_eq_true'] at this
      exact this.2
  · intro res hres hm
    unfold searchGroupEndpoint at hres
    by_cases hlen : (jsTrim q).length < 2
    · rw [if_pos hlen] at hres
      exact absurd hres (by simp)
    · rw [if_neg hlen] at hres
      have hres' := Option.some.inj hres
      subst hres'
      have hq := mem_query m store
        (fun mm => mm.group == some g && containsCI mm.content q && !mm.isDeleted)
        ((page - 1) * limit) (limit * 1) hm
      have := hq.1
      simp only [Bool.and_eq_true, Bool.not_eq_true'] at this
      exact this.2
  · intro h
    have hq := mem_query m (softDelete store mid tdel)
      (fun mm => mm.conversation == some (resolveConversationKey u1 u2) && !mm.isDeleted)
      ((page - 1) * limit) (limit * page) h
    have hfalse : m.isDeleted = false := by
      have := hq.1
      simp only [Bool.and_eq_true, Bool.not_eq_true'] at this
      exact this.2
    exact softDelete_deleted store mid tdel m hq.2 hfalse
  · intro h
    have hq := mem_query m (softDelete store mid tdel)
      (fun mm => mm.group == some g && !mm.isDeleted)
      ((page - 1) * limit) (limit * page) h
    have hfalse : m.isDeleted = false := by
      have := hq.1
      simp only [Bool.and_eq_true, Bool.not_eq_true'] at this
      exact this.2
    exact softDelete_deleted store mid tdel m hq.2 hfalse

def c3dm1 : Message := mkDirectMessage "d1" "alice" "bob" "hello there" "text" 10

def c3dm2 : Message := mkDirectMessage "d2" "bob" "alice" "hi again" "text" 20

def c3gm1 : Message := mkGroupMessage "g1" "alice" "grp" "hello group" "text" none 15

def c3store : List Message := [c3dm1, c3dm2, c3gm1]

theorem C3_soft_deleted_witness :
    c3dm2.isDeleted = false ∧
    c3gm1.isDeleted = false ∧
    c3dm1.isDeleted = false ∧
    c3dm2.id ≠ "d1" ∧
    c3gm1.id ≠ "d1" :=
  ⟨(C3_soft_deleted_never_returned c3store "alice" "bob" "grp" "hello" "d1" 1 50 99 c3dm2).1
      (by decide),
   (C3_soft_deleted_never_returned c3store "alice" "bob" "grp" "hello" "d1" 1 50 99 c3gm1).2.1
      (by decide),
   (C3_soft_deleted_never_returned c3store "alice" "bob" "grp" "hello" "d1" 1 50 99
      c3dm1).2.2.1 [c3dm1] (by decide) (by decide),
   (C3_soft_deleted_never_returned c3store "alice" "bob" "grp" "hello" "d1" 1 50 99
      c3dm2).2.2.2.2.1 (by decide),
   (C3_soft_deleted_never_returned c3store "alice" "bob" "grp" "hello" "d1" 1 50 99
      c3gm1).2.2.2.2.2 (by decide)⟩

def c4store : List Message :=
  [mkDirectMessage "p1" "alice" "bob" "one" "text" 1,
   mkDirectMessage "p2" "alice" "bob" "two" "text" 2,
   mkDirectMessage "p3" "alice" "bob" "three" "text" 3]

/-- C4 counterexample: with three stored non-deleted messages of one
conversation, page 2 and page size 1, getConversation returns two
messages — the query uses `.limit(limit * page)`, so up to page * pageSize
documents come back, not pageSize. -/
theorem C4_page_size_counterexample :
    (getConversation c4store "alice" "bob" 2 1).length = 2 ∧
    ¬((getConversation c4store "alice" "bob" 2 1).length ≤ 1) := by
  decide

/-- C4 (amended): for every page p ≥ 1, getConversation and
getGroupMessages return at most p * pageSize messages, taken newest-first
after skipping (p-1)*pageSize of the non-deleted messages of that
conversation or group. -/
theorem C4_pagination_amended (store : List Message) (u1 u2 g : String) (page limit : Nat) :
    (getConversation store u1 u2 page limit).length ≤ limit * page ∧
    (getGroupMessages store g page limit).length ≤ limit * page ∧
    getConversation store u1 u2 page limit =
      ((sortNewestFirst (store.filter (fun m =>
          m.conversation == some (resolveConversationKey u1 u2) && !m.isDeleted))).drop
        ((page - 1) * limit)).take (limit * page) ∧
    getGroupMessages store g page limit =
      ((sortNewestFirst (store.filter (fun m =>
          m.group == some g && !m.isDeleted))).drop ((page - 1) * limit)).take
        (limit * page) :=
  ⟨List.length_take_le _ _, List.length_take_le _ _, rfl, rfl⟩

/-- Whether a message belongs to one of the given joined groups. -/
def inJoinedGroup (m : Message) (joinedGroups : List String) : Bool :=
  match m.group with
  | some g => joinedGroups.contains g
  | none => false

/-- The unread-message count as worded by the spec: messages addressed to
the user (directly or via a joined group) with sender different from the
user, the user absent from readBy, restricted to non-deleted. -/
def specUnreadCount (store : List Message) (userId : String)
    (joinedGroups : List String) : Nat :=
  store.countP (fun m =>
    (m.recipient == some userId || inJoinedGroup m joinedGroups) &&
    m.sender != userId &&
    !(m.readBy.any (fun r => r.user == userId)) &&
    !m.isDeleted)

/-- The unread-message count with the sender restriction applied only to
the group branch, as the implemented query does. -/
def amendedUnreadCount (store : List Message) (userId : String)
    (joinedGroups : List String) : Nat :=
  store.countP (fun m =>
    (m.recipient == some userId || (inJoinedGroup m joinedGroups && m.sender != userId)) &&
    !(m.readBy.any (fun r => r.user == userId)) &&
    !m.isDeleted)

/-- C5 counterexample: a self-message (sender = recipient = the user, not
yet read) is counted by the implemented unread query, whose direct branch
has no sender restriction, while the claimed count excludes it. -/
theorem C5_unread_counterexample :
    unreadCount [mkDirectMessage "s1" "u" "u" "note to self" "text" 5] "u" [] = 1 ∧
    specUnreadCount [mkDirectMessage "s1" "u" "u" "note to self" "text" 5] "u" [] = 0 := by
  decide

/-- C5 (amended): the unread-count result equals the number of non-deleted
messages not yet read by the user that either are addressed directly to
the user (regardless of sender — self-messages count), or belong to one of
the user's joined groups and have a different sender. -/
theorem C5_unread_count_amended (store : List Message) (userId : String)
    (joinedGroups : List String) :
    unreadCount store userId joinedGroups = amendedUnreadCount store userId joinedGroups := by
  unfold unreadCount amendedUnreadCount
  rw [List.countP_eq_length_filter]
  apply congrArg List.length
  apply List.filter_congr
  intro m _
  unfold inJoinedGroup
  cases m.group
  · simp
  · rfl

theorem find?_cons_eq (p : Message → Bool) (a : Message) (l : List Message) :
    List.find? p (a :: l) = if p a then some a else List.find? p l := by
  by_cases h : p a = true
  · rw [if_pos h]
    exact List.find?_cons_of_pos _ h
  · have h' : p a = false := by
      cases hb : p a
      · rfl
      · exact absurd hb h
    rw [if_neg h]
    exact List.find?_cons_of_neg _ (by simp [h'])

theorem findMessage_map_edit (store : List Message) (mid c : String) (t : Nat) :
    findMessage (store.map (fun x => if x.id == mid then x.editContent c t else x)) mid =
      (findMessage store mid).map (fun x => x.editContent c t) := by
  induction store with
  | nil => rfl
  | cons h tl ih =>
    unfold findMessage at ih ⊢
    rw [List.map_cons, find?_cons_eq, find?_cons_eq]
    by_cases hid : (h.id == mid) = true
    · simp [hid, editContent_id]
    · have hid' : (h.id == mid) = false := by
        cases hb : h.id == mid
        · rfl
        · exact absurd hb hid
      rw [if_neg hid]
      simp only [hid', Bool.false_eq_true, if_false]
      exact ih

/-- C9: the REST edit endpoint rejects any edit request once the current
time exceeds five minutes past the message's creation time — no updated
store is produced — while an edit issued by the sender of a live message
within the window, with valid content, succeeds and updates the content. -/
theorem C9_edit_window (store : List Message) (userId messageId content : String)
    (now : Nat) (m : Message) (hfind : findMessage store messageId = some m) :
    (m.createdAt + 5 * 60 * 1000 < now →
      (editMessageEndpoint store userId messageId content now).isSuccess = false) ∧
    (m.isDeleted = false → m.sender = userId → now ≤ m.createdAt + 5 * 60 * 1000 →
      1 ≤ (jsTrim content).length → (jsTrim content).length ≤ 2000 →
      editMessageEndpoint store userId messageId content now =
        .success (store.map (fun x =>
          if x.id == messageId then x.editContent (jsTrim content) now else x)) ∧
      findMessage (store.map (fun x =>
          if x.id == messageId then x.editContent (jsTrim content) now else x)) messageId =
        some (m.editContent (jsTrim content) now) ∧
      (m.editContent (jsTrim content) now).content = jsTrim content) := by
  constructor
  · intro hlate
    unfold editMessageEndpoint
    by_cases hv : (jsTrim content).length < 1 ∨ 2000 < (jsTrim content).length
    · rw [if_pos hv]
      rfl
    · rw [if_neg hv]
      simp only [hfind]
      by_cases hd : m.isDeleted = true
      · rw [if_pos hd]
        rfl
      · rw [if_neg hd]
        by_cases hs : (m.sender != userId) = true
        · rw [if_pos hs]
          rfl
        · rw [if_neg hs]
          rw [if_pos (show m.createdAt < now - 5 * 60 * 1000 by omega)]
          rfl
  · intro hdel hsender hwin hlen1 hlen2
    have hv : ¬((jsTrim content).length < 1 ∨ 2000 < (jsTrim content).length) := by omega
    unfold editMessageEndpoint
    rw [if_neg hv]
    simp only [hfind]
    rw [if_neg (by simp [hdel])]
    rw [if_neg (by simp [hsender])]
    rw [if_neg (show ¬(m.createdAt < now - 5 * 60 * 1000) by omega)]
    refine ⟨rfl, ?_, editContent_content m (jsTrim content) now⟩
    rw [findMessage_map_edit, hfind]
    rfl

def c9m : Message := mkDirectMessage "e1" "alice" "bob" "hello" "text" 1000

def c9store : List Message := [c9m]

theorem C9_edit_window_witness :
    (editMessageEndpoint c9store "alice" "e1" " hi there " 301001).isSuccess = false ∧
    (c9m.editContent (jsTrim " hi there ") 201000).content = jsTrim " hi there " ∧
    findMessage (c9store.map (fun x =>
        if x.id == "e1" then x.editContent (jsTrim " hi there ") 201000 else x)) "e1" =
      some (c9m.editContent (jsTrim " hi there ") 201000) :=
  ⟨(C9_edit_window c9store "alice" "e1" " hi there " 301001 c9m (by decide)).1 (by decide),
   ((C9_edit_window c9store "alice" "e1" " hi there " 201000 c9m (by decide)).2
      (by decide) (by decide) (by decide) (by decide) (by decide)).2.2,
   ((C9_edit_window c9store "alice" "e1" " hi there " 201000 c9m (by decide)).2
      (by decide) (by decide) (by decide) (by decide) (by decide)).2.1⟩

/-- All stored fields of a message other than `readBy` coincide. -/
def sameExceptReadBy (a b : Message) : Prop :=
  a.id = b.id ∧ a.sender = b.sender ∧ a.content = b.content ∧ a.type = b.type ∧
  a.recipient = b.recipient ∧ a.group = b.group ∧ a.conversation = b.conversation ∧
  a.replyTo = b.replyTo ∧ a.reactions = b.reactions ∧ a.edited = b.edited ∧
  a.isDeleted = b.isDeleted ∧ a.deletedAt = b.deletedAt ∧ a.mentions = b.mentions ∧
  a.createdAt = b.createdAt

/-- C10: the REST fetch endpoints mark messages read as a side effect —
the conversation fetch appends a readBy entry for the requester to exactly
those messages sent by the other user to the requester that the requester
has not yet read, the group fetch to exactly those group messages not sent
by the requester and not yet read, and no other stored fields of any
message change. -/
theorem C10_fetch_marks_read (store : List Message) (me other gid : String) (t : Nat)
    (m : Message) :
    markConversationFetched store me other t = store.map (convFetchUpdate me other t) ∧
    markGroupFetched store me gid t = store.map (groupFetchUpdate me gid t) ∧
    (m.sender = other → m.recipient = some me → (∀ r ∈ m.readBy, r.user ≠ me) →
      (convFetchUpdate me other t m).readBy = m.readBy ++ [⟨me, t⟩] ∧
      sameExceptReadBy (convFetchUpdate me other t m) m) ∧
    (¬(m.sender = other ∧ m.recipient = some me ∧ ∀ r ∈ m.readBy, r.user ≠ me) →
      convFetchUpdate me other t m = m) ∧
    (m.group = some gid → m.sender ≠ me → (∀ r ∈ m.readBy, r.user ≠ me) →
      (groupFetchUpdate me gid t m).readBy = m.readBy ++ [⟨me, t⟩] ∧
      sameExceptReadBy (groupFetchUpdate me gid t m) m) ∧
    (¬(m.group = some gid ∧ m.sender ≠ me ∧ ∀ r ∈ m.readBy, r.user ≠ me) →
      groupFetchUpdate me gid t m = m) := by
  refine ⟨rfl, rfl, ?_, ?_, ?_, ?_⟩
  · intro h1 h2 h3
    have hany : (m.readBy.any (fun r => r.user == me)) = false := by
      cases hb : m.readBy.any (fun r => r.user == me)
      · rfl
      · obtain ⟨r, hr, hpr⟩ := List.any_eq_true.mp hb
        exact absurd (beq_iff_eq.mp hpr) (h3 r hr)
    unfold convFetchUpdate
    rw [if_pos (by simp [h1, h2, hany])]
    exact ⟨rfl, rfl, rfl, rfl, rfl, rfl, rfl, rfl, rfl, rfl, rfl, rfl, rfl, rfl, rfl⟩
  · intro hn
    unfold convFetchUpdate
    by_cases hb : (m.sender == other && m.recipient == some me &&
        !(m.readBy.any (fun r => r.user == me))) = true
    · exfalso
      apply hn
      simp only [Bool.and_eq_true, Bool.not_eq_true'] at hb
      refine ⟨beq_iff_eq.mp hb.1.1, beq_iff_eq.mp hb.1.2, ?_⟩
      intro r hr hre
      have hx : m.readBy.any (fun r => r.user == me) = true :=
        List.any_eq_true.mpr ⟨r, hr, beq_iff_eq.mpr hre⟩
      rw [hb.2] at hx
      exact Bool.noConfusion hx
    · rw [if_neg hb]
  · intro h1 h2 h3
    have hany : (m.readBy.any (fun r => r.user == me)) = false := by
      cases hb : m.readBy.any (fun r => r.user == me)
      · rfl
      · obtain ⟨r, hr, hpr⟩ := List.any_eq_true.mp hb
        exact absurd (beq_iff_eq.mp hpr) (h3 r hr)
    have hs : (m.sender != me) = true := by
      simp only [bne_iff_ne, ne_eq]
      exact h2
    unfold groupFetchUpdate
    rw [if_pos (by simp [h1, hs, hany])]
    exact ⟨rfl, rfl, rfl, rfl, rfl, rfl, rfl, rfl, rfl, rfl, rfl, rfl, rfl, rfl, rfl⟩
  · intro hn
    unfold groupFetchUpdate
    by_cases hb : (m.group == some gid && m.sender != me &&
        !(m.readBy.any (fun r => r.user == me))) = true
    · exfalso
      apply hn
      simp only [Bool.and_eq_true, Bool.not_eq_true'] at hb
      refine ⟨beq_iff_eq.mp hb.1.1, bne_iff_ne.mp hb.1.2, ?_⟩
      intro r hr hre
      have hx : m.readBy.any (fun r => r.user == me) = true :=
        List.any_eq_true.mpr ⟨r, hr, beq_iff_eq.mpr hre⟩
      rw [hb.2] at hx
      exact Bool.noConfusion hx
    · rw [if_neg hb]

def c10dm : Message := mkDirectMessage "w1" "bob" "alice" "hey" "text" 5

def c10gm : Message := mkGroupMessage "w2" "bob" "grp" "yo" "text" none 6

theorem C10_fetch_marks_read_witness :
    ((convFetchUpdate "alice" "bob" 50 c10dm).readBy = c10dm.readBy ++ [⟨"alice", 50⟩] ∧
      sameExceptReadBy (convFetchUpdate "alice" "bob" 50 c10dm) c10dm) ∧
    convFetchUpdate "bob" "zed" 50 c10dm = c10dm ∧
    ((groupFetchUpdate "alice" "grp" 60 c10gm).readBy = c10gm.readBy ++ [⟨"alice", 60⟩] ∧
      sameExceptReadBy (groupFetchUpdate "alice" "grp" 60 c10gm) c10gm) ∧
    groupFetchUpdate "bob" "grp" 60 c10gm = c10gm :=
  ⟨(C10_fetch_marks_read [] "alice" "bob" "grp" 50 c10dm).2.2.1
      (by decide) (by decide) (by decide),
   (C10_fetch_marks_read [] "bob" "zed" "grp" 50 c10dm).2.2.2.1 (by decide),
   (C10_fetch_marks_read [] "alice" "bob" "grp" 60 c10gm).2.2.2.2.1
      (by decide) (by decide) (by decide),
   (C10_fetch_marks_read [] "bob" "zed" "grp" 60 c10gm).2.2.2.2.2 (by decide)⟩

end MiniOffice
